import Mathlib

/-!
Shallow embedding of the geo repository (crates r1, r2, r3) and proofs
about its Interval, Rect and Vector operations.

Real-valued fields of the Rust code (f64) are embedded as rationals (ℚ):
every operation the claims touch uses only field arithmetic, min/max and
comparisons, which agree with real/rational semantics on finite inputs.
One claim is about behaviour at NaN and infinities; for it we additionally
embed a four-constructor model Fp of the IEEE-754 comparison and the Rust
f64 min/max semantics (see below).
-/

namespace Geo

/-- Closed interval with lo and hi bounds, from src/r1/src/lib.rs lines 3-7. -/
structure Interval where
  lo : ℚ
  hi : ℚ
deriving DecidableEq

/-- Function empty_interval from src/r1/src/lib.rs lines 9-11: the canonical
empty interval with lo = 1, hi = 0. -/
def empty_interval : Interval := ⟨1, 0⟩

/-- Function interval_from_point from src/r1/src/lib.rs lines 13-15. -/
def interval_from_point (p : ℚ) : Interval := ⟨p, p⟩

/-- Method is_empty from src/r1/src/lib.rs lines 25-27: lo > hi. -/
def Interval.is_empty (i : Interval) : Bool := decide (i.lo > i.hi)

/-- Method equal from src/r1/src/lib.rs lines 29-31: structural equality, or
both empty. -/
def Interval.equal (i oi : Interval) : Bool :=
  decide (i = oi) || (i.is_empty && oi.is_empty)

/-- Method length from src/r1/src/lib.rs lines 37-39. -/
def Interval.length (i : Interval) : ℚ := i.hi - i.lo

/-- Method contains from src/r1/src/lib.rs lines 41-43. -/
def Interval.contains (i : Interval) (p : ℚ) : Bool :=
  decide (i.lo ≤ p) && decide (p ≤ i.hi)

/-- Method contains_interval from src/r1/src/lib.rs lines 45-51. -/
def Interval.contains_interval (i oi : Interval) : Bool :=
  if oi.is_empty then true
  else decide (i.lo ≤ oi.lo) && decide (oi.hi ≤ i.hi)

/-- Method interior_contains from src/r1/src/lib.rs lines 53-55. -/
def Interval.interior_contains (i : Interval) (p : ℚ) : Bool :=
  decide (i.lo < p) && decide (p < i.hi)

/-- Method intersects from src/r1/src/lib.rs lines 67-73: case split on which
low bound is smaller, each branch also checking the compared interval is
non-empty. -/
def Interval.intersects (i oi : Interval) : Bool :=
  if i.lo ≤ oi.lo then decide (oi.lo ≤ i.hi) && decide (oi.lo ≤ oi.hi)
  else decide (i.lo ≤ oi.hi) && decide (i.lo ≤ i.hi)

/-- Method interior_intersects from src/r1/src/lib.rs lines 75-77. Note the
last conjunct of the source is the CLOSED test oi.lo <= oi.hi, not a strict
one. -/
def Interval.interior_intersects (i oi : Interval) : Bool :=
  decide (oi.lo < i.hi) && decide (i.lo < oi.hi) &&
    decide (i.lo < i.hi) && decide (oi.lo ≤ oi.hi)

/-- Method intersection from src/r1/src/lib.rs lines 79-84: max of the lows,
min of the his, returned without canonicalization. -/
def Interval.intersection (i oi : Interval) : Interval :=
  ⟨max i.lo oi.lo, min i.hi oi.hi⟩

/-- Method add_point from src/r1/src/lib.rs lines 86-100. In the source each
of the three if blocks builds an interval as a STATEMENT ending in a
semicolon and never returns it, so the constructed value is discarded and
control always falls through to return self. The discarded constructions
are reproduced here as unused let bindings to mirror the source text. -/
def Interval.add_point (i : Interval) (p : ℚ) : Interval :=
  let _ := if i.is_empty then some (Interval.mk p p) else none
  let _ := if decide (p < i.lo) then some (Interval.mk p i.hi) else none
  let _ := if decide (p > i.hi) then some (Interval.mk i.lo p) else none
  i

/-- Method clamp_point from src/r1/src/lib.rs lines 102-104 (rational
version): max(lo, min(hi, p)). -/
def Interval.clamp_point (i : Interval) (p : ℚ) : ℚ :=
  max i.lo (min i.hi p)

/-- Method union from src/r1/src/lib.rs lines 117-130: an empty receiver
yields the argument, an empty argument yields the receiver, otherwise
min of the lows and max of the his. -/
def Interval.union (i other : Interval) : Interval :=
  if i.is_empty then other
  else if other.is_empty then i
  else ⟨min i.lo other.lo, max i.hi other.hi⟩

/-- Two-dimensional point from src/r2/src/point.rs lines 1-5. -/
structure Point where
  x : ℚ
  y : ℚ
deriving DecidableEq

/-- Rectangle as a pair of intervals, from src/r2/src/rect.rs lines 6-10. -/
structure Rect where
  x : Interval
  y : Interval
deriving DecidableEq

/-- Function empty_rect from src/r2/src/rect.rs lines 55-60. -/
def empty_rect : Rect := ⟨empty_interval, empty_interval⟩

/-- Method is_valid from src/r2/src/rect.rs lines 63-65: the two axes agree
on emptiness. -/
def Rect.is_valid (r : Rect) : Bool := r.x.is_empty == r.y.is_empty

/-- Method Rect::add_point from src/r2/src/rect.rs lines 160-165: per-axis
Interval add_point. -/
def Rect.add_point (r : Rect) (p : Point) : Rect :=
  ⟨r.x.add_point p.x, r.y.add_point p.y⟩

/-- Method Rect::add_rect from src/r2/src/rect.rs lines 167-172: per-axis
Interval union. -/
def Rect.add_rect (r or : Rect) : Rect :=
  ⟨r.x.union or.x, r.y.union or.y⟩

/-- Method Rect::union from src/r2/src/rect.rs lines 208-213: per-axis
Interval union. -/
def Rect.union (r or : Rect) : Rect :=
  ⟨r.x.union or.x, r.y.union or.y⟩

/-- Method Rect::intersection from src/r2/src/rect.rs lines 217-226:
per-axis Interval intersection, canonicalized to empty_rect when either
axis comes out empty. -/
def Rect.intersection (r or : Rect) : Rect :=
  let xx := r.x.intersection or.x
  let yy := r.y.intersection or.y
  if xx.is_empty || yy.is_empty then empty_rect else ⟨xx, yy⟩

/-- Method Rect::contains_point from src/r2/src/rect.rs lines 134-136. -/
def Rect.contains_point (r : Rect) (p : Point) : Bool :=
  r.x.contains p.x && r.y.contains p.y

/-- Function rect_from_points from src/r2/src/rect.rs lines 12-36: empty
slice gives the degenerate rectangle at the origin; otherwise start from
the degenerate rectangle at points[0] and fold Rect::add_point over the
whole slice (the source loop revisits points[0] too). -/
def rect_from_points (points : List Point) : Rect :=
  match points with
  | [] => ⟨⟨0, 0⟩, ⟨0, 0⟩⟩
  | p0 :: _ =>
      points.foldl (fun r p => r.add_point p)
        ⟨⟨p0.x, p0.x⟩, ⟨p0.y, p0.y⟩⟩

/-- Three-dimensional vector from src/r3/src/vector.rs lines 1-6. -/
structure Vector where
  x : ℚ
  y : ℚ
  z : ℚ
deriving DecidableEq

/-- Method Vector::approx_equal from src/r3/src/vector.rs lines 19-24,
embedded exactly as written: only the x component is compared through abs;
the y and z components compare the SIGNED difference against epsilon (the
source spells the y access v.Y, read here as the field y). -/
def Vector.approx_equal (v ov : Vector) : Bool :=
  let epsilon : ℚ := 1 / 10 ^ 16
  decide (|v.x - ov.x| < epsilon) &&
    decide (v.y - ov.y < epsilon) &&
    decide (v.z - ov.z < epsilon)

/-- Model of an f64 value for the one claim about NaN and infinities: NaN,
negative infinity, a finite value, or positive infinity. Signed zeros are
identified, which is harmless here since no operation involved
distinguishes them. -/
inductive Fp where
  | nan : Fp
  | ninf : Fp
  | fin : ℚ → Fp
  | pinf : Fp
deriving DecidableEq

/-- IEEE-754 strict less-than on Fp: every comparison with NaN is false,
negative infinity is below every number, positive infinity above. -/
def Fp.lt : Fp → Fp → Bool
  | .nan, _ => false
  | _, .nan => false
  | .ninf, .ninf => false
  | .ninf, _ => true
  | _, .ninf => false
  | .pinf, _ => false
  | _, .pinf => true
  | .fin a, .fin b => decide (a < b)

/-- IEEE-754 greater-than on Fp, as the flipped strict less-than. -/
def Fp.gt (x y : Fp) : Bool := Fp.lt y x

/-- Rust f64::min on Fp: if either argument is NaN the other is returned,
otherwise the smaller of the two. -/
def Fp.rustMin (x y : Fp) : Fp :=
  if x = .nan then y else if y = .nan then x
  else if Fp.lt x y then x else y

/-- Rust f64::max on Fp: if either argument is NaN the other is returned,
otherwise the larger of the two. -/
def Fp.rustMax (x y : Fp) : Fp :=
  if x = .nan then y else if y = .nan then x
  else if Fp.lt x y then y else x

/-- Interval with f64-modelled bounds, for the claim about clamp_point on
empty receivers at NaN and infinite inputs. -/
structure FInterval where
  lo : Fp
  hi : Fp
deriving DecidableEq

/-- Method is_empty from src/r1/src/lib.rs lines 25-27 over the f64 model:
lo > hi under IEEE comparison. -/
def FInterval.is_empty (i : FInterval) : Bool := Fp.gt i.lo i.hi

/-- Method clamp_point from src/r1/src/lib.rs lines 102-104 over the f64
model: self.lo.max(self.hi.min(p)) with the Rust min/max semantics. -/
def FInterval.clamp_point (i : FInterval) (p : Fp) : Fp :=
  Fp.rustMax i.lo (Fp.rustMin i.hi p)

/-- Stated from the wording of the interior-intersection claim, not from the
source: the open interiors (i.lo, i.hi) and (j.lo, j.hi) overlap in a
non-degenerate open range exactly when the larger of the lows is strictly
below the smaller of the his. -/
def claim_open_interiors_overlap (i j : Interval) : Prop :=
  max i.lo j.lo < min i.hi j.hi

/-! Helper lemmas shared by the claim theorems. -/

lemma is_empty_true_iff (i : Interval) : i.is_empty = true ↔ i.hi < i.lo := by
  simp [Interval.is_empty]

lemma is_empty_false_iff (i : Interval) : i.is_empty = false ↔ i.lo ≤ i.hi := by
  simp [Interval.is_empty]

lemma add_point_eq_self (i : Interval) (p : ℚ) : i.add_point p = i := rfl

lemma rect_add_point_eq_self (r : Rect) (p : Point) : r.add_point p = r := rfl

lemma foldl_add_point (l : List Point) (r : Rect) :
    l.foldl (fun r p => r.add_point p) r = r := by
  induction l generalizing r with
  | nil => rfl
  | cons p rest ih => simp [rect_add_point_eq_self, ih]

lemma union_of_empty_left {i : Interval} (j : Interval) (h : i.is_empty = true) :
    i.union j = j := by
  simp [Interval.union, h]

lemma union_of_empty_right {i j : Interval} (h1 : i.is_empty = false)
    (h2 : j.is_empty = true) : i.union j = i := by
  simp [Interval.union, h1, h2]

lemma union_of_not_empty {i j : Interval} (h1 : i.is_empty = false)
    (h2 : j.is_empty = false) :
    i.union j = Interval.mk (min i.lo j.lo) (max i.hi j.hi) := by
  simp [Interval.union, h1, h2]

lemma union_not_empty {i j : Interval} (h1 : i.is_empty = false)
    (h2 : j.is_empty = false) : (i.union j).is_empty = false := by
  rw [union_of_not_empty h1 h2]
  rw [is_empty_false_iff] at h1 h2 ⊢
  simp only []
  have := min_le_left i.lo j.lo
  have := le_max_left i.hi j.hi
  linarith

lemma equal_refl (i : Interval) : i.equal i = true := by
  simp [Interval.equal]

lemma equal_of_empty {i j : Interval} (h1 : i.is_empty = true)
    (h2 : j.is_empty = true) : i.equal j = true := by
  simp [Interval.equal, h1, h2]

lemma is_valid_iff (r : Rect) : r.is_valid = true ↔ r.x.is_empty = r.y.is_empty := by
  simp [Rect.is_valid]

lemma intersects_iff (i j : Interval) :
    i.intersects j = true ↔
      j.lo ≤ i.hi ∧ i.lo ≤ j.hi ∧ i.lo ≤ i.hi ∧ j.lo ≤ j.hi := by
  unfold Interval.intersects
  by_cases h : i.lo ≤ j.lo
  · simp only [h, if_true, Bool.and_eq_true, decide_eq_true_eq]
    constructor
    · rintro ⟨a, b⟩
      exact ⟨a, by linarith, by linarith, b⟩
    · rintro ⟨a, _, _, d⟩
      exact ⟨a, d⟩
  · push_neg at h
    simp only [not_le.mpr h, if_false, Bool.and_eq_true, decide_eq_true_eq]
    constructor
    · rintro ⟨a, b⟩
      exact ⟨by linarith, a, b, by linarith⟩
    · rintro ⟨_, b, c, _⟩
      exact ⟨b, c⟩

lemma interior_intersects_iff (i j : Interval) :
    i.interior_intersects j = true ↔
      j.lo < i.hi ∧ i.lo < j.hi ∧ i.lo < i.hi ∧ j.lo ≤ j.hi := by
  simp [Interval.interior_intersects, and_assoc]

lemma contains_iff (i : Interval) (p : ℚ) :
    i.contains p = true ↔ i.lo ≤ p ∧ p ≤ i.hi := by
  simp [Interval.contains]

lemma interior_contains_iff (i : Interval) (p : ℚ) :
    i.interior_contains p = true ↔ i.lo < p ∧ p < i.hi := by
  simp [Interval.interior_contains]

lemma open_overlap_iff (i j : Interval) :
    claim_open_interiors_overlap i j ↔
      ∃ p, i.interior_contains p = true ∧ j.interior_contains p = true := by
  constructor
  · intro h
    unfold claim_open_interiors_overlap at h
    refine ⟨(max i.lo j.lo + min i.hi j.hi) / 2, ?_, ?_⟩ <;>
      rw [interior_contains_iff] <;> constructor
    · have := le_max_left i.lo j.lo
      have := min_le_left i.hi j.hi
      linarith
    · have := le_max_left i.lo j.lo
      have := min_le_left i.hi j.hi
      linarith
    · have := le_max_right i.lo j.lo
      have := min_le_right i.hi j.hi
      linarith
    · have := le_max_right i.lo j.lo
      have := min_le_right i.hi j.hi
      linarith
  · rintro ⟨p, hp1, hp2⟩
    rw [interior_contains_iff] at hp1 hp2
    unfold claim_open_interiors_overlap
    rcases hp1 with ⟨a1, a2⟩
    rcases hp2 with ⟨b1, b2⟩
    rw [max_lt_iff]
    constructor <;> rw [lt_min_iff] <;> constructor <;> linarith

lemma fp_lt_ne_nan {x y : Fp} (h : Fp.lt x y = true) :
    x ≠ Fp.nan ∧ y ≠ Fp.nan := by
  cases x <;> cases y <;> simp_all [Fp.lt]

lemma fp_lt_asymm {x y : Fp} (h : Fp.lt x y = true) : Fp.lt y x = false := by
  cases x <;> cases y <;> simp_all [Fp.lt, not_lt]
  linarith

lemma fp_lt_chain {lo hi p : Fp} (hp : p ≠ Fp.nan)
    (h1 : Fp.lt hi lo = true) (h2 : Fp.lt hi p = false) :
    Fp.lt lo p = false := by
  cases lo <;> cases hi <;> cases p <;> simp_all [Fp.lt, not_lt]
  linarith

/-! Claim theorems. -/

/-- C1: the claim says add_point extends the receiver to cover p ([p,p] on an
empty receiver) and that the result always contains p. The source constructs
the extended intervals as discarded statements and always returns the
receiver, so its own add_point test inputs fail: empty_interval.add_point 5
is the unchanged empty interval and does not contain 5. -/
theorem C1_add_point_code_bug :
    empty_interval.add_point 5 = empty_interval ∧
    (empty_interval.add_point 5).contains 5 = false := by
  constructor
  · rfl
  · decide

/-- C2: the claim says rect_from_points on a non-empty list is the bounding
box of all its points. Because Interval add_point always returns its
receiver, rect_from_points collapses to the degenerate rectangle at the
first point: on [(0,0), (1,1)] it returns [0,0]x[0,0], which does not
contain (1,1). The empty-list case does return the degenerate origin
rectangle as claimed. -/
theorem C2_rect_from_points_code_bug :
    rect_from_points [] = Rect.mk ⟨0, 0⟩ ⟨0, 0⟩ ∧
    rect_from_points [Point.mk 0 0, Point.mk 1 1] = Rect.mk ⟨0, 0⟩ ⟨0, 0⟩ ∧
    (rect_from_points [Point.mk 0 0, Point.mk 1 1]).contains_point ⟨1, 1⟩ = false := by
  refine ⟨rfl, ?_, by decide⟩
  rw [rect_from_points, foldl_add_point]

/-- C3: no public Rect operation produces an invalid Rect: rect_from_points
always yields a valid Rect, and intersection and union of valid Rects are
valid. -/
theorem C3_public_rect_ops_valid (points : List Point) (r1 r2 : Rect)
    (h1 : r1.is_valid = true) (h2 : r2.is_valid = true) :
    (rect_from_points points).is_valid = true ∧
    (r1.intersection r2).is_valid = true ∧
    (r1.union r2).is_valid = true := by
  refine ⟨?_, ?_, ?_⟩
  · cases points with
    | nil => decide
    | cons p0 rest =>
        rw [rect_from_points, foldl_add_point, is_valid_iff]
        simp [Interval.is_empty]
  · rw [Rect.intersection]
    by_cases h : ((r1.x.intersection r2.x).is_empty ||
        (r1.y.intersection r2.y).is_empty) = true
    · simp only [h, if_true]
      decide
    · simp only [Bool.or_eq_true, not_or, Bool.not_eq_true] at h
      simp only [Bool.or_eq_true, h.1, h.2, or_self, if_false]
      rw [is_valid_iff]
      simp [h.1, h.2]
  · rw [is_valid_iff] at h1 h2 ⊢
    rw [Rect.union]
    cases hx1 : r1.x.is_empty
    · cases hx2 : r2.x.is_empty
      · have hy1 : r1.y.is_empty = false := by rw [← h1, hx1]
        have hy2 : r2.y.is_empty = false := by rw [← h2, hx2]
        simp only []
        rw [union_not_empty hx1 hx2, union_not_empty hy1 hy2]
      · have hy1 : r1.y.is_empty = false := by rw [← h1, hx1]
        have hy2 : r2.y.is_empty = true := by rw [← h2, hx2]
        simp only []
        rw [union_of_empty_right hx1 hx2, union_of_empty_right hy1 hy2, hx1, hy1]
    · have hy1 : r1.y.is_empty = true := by rw [← h1, hx1]
      simp only []
      rw [union_of_empty_left r2.x hx1, union_of_empty_left r2.y hy1]
      exact h2

/-- C3 witness: the theorem applied to the empty points list and two copies
of the canonical empty rectangle. -/
theorem C3_witness :
    (rect_from_points []).is_valid = true ∧
    (empty_rect.intersection empty_rect).is_valid = true ∧
    (empty_rect.union empty_rect).is_valid = true :=
  C3_public_rect_ops_valid [] empty_rect empty_rect (by decide) (by decide)

/-- C4: intersection of two intervals is exactly the pair of the max of the
lows and the min of the his, returned without canonicalization even when
empty; a point lies in the intersection exactly when it lies in both
operands; and the unit interval meets the negative unit interval in the
single point interval [0,0]. -/
theorem C4_intersection_formula (i j : Interval) (p : ℚ) :
    i.intersection j = Interval.mk (max i.lo j.lo) (min i.hi j.hi) ∧
    (i.intersection j).contains p = (i.contains p && j.contains p) ∧
    Interval.intersection ⟨0, 1⟩ ⟨-1, 0⟩ = Interval.mk 0 0 := by
  refine ⟨rfl, ?_, by decide⟩
  rw [Bool.eq_iff_iff, contains_iff, Bool.and_eq_true, contains_iff, contains_iff]
  unfold Interval.intersection
  simp only [max_le_iff, le_min_iff]
  tauto

/-- C5: intersects is symmetric, returns false whenever either operand is
empty, and on non-empty operands returns true exactly when the two closed
ranges share a point. -/
theorem C5_intersects_symmetric_empty (i j : Interval) :
    i.intersects j = j.intersects i ∧
    (i.is_empty = true ∨ j.is_empty = true → i.intersects j = false) ∧
    (i.is_empty = false → j.is_empty = false →
      (i.intersects j = true ↔
        ∃ p, i.contains p = true ∧ j.contains p = true)) := by
  refine ⟨?_, ?_, ?_⟩
  · rw [Bool.eq_iff_iff, intersects_iff, intersects_iff]
    tauto
  · intro hemp
    cases hv : i.intersects j with
    | false => rfl
    | true =>
        exfalso
        obtain ⟨a, b, c, d⟩ := (intersects_iff i j).mp hv
        rcases hemp with he | he <;> rw [is_empty_true_iff] at he <;> linarith
  · intro hi hj
    rw [is_empty_false_iff] at hi hj
    rw [intersects_iff]
    constructor
    · rintro ⟨a, b, c, d⟩
      refine ⟨max i.lo j.lo, ?_, ?_⟩ <;> rw [contains_iff]
      · exact ⟨le_max_left _ _, max_le_iff.mpr ⟨c, a⟩⟩
      · exact ⟨le_max_right _ _, max_le_iff.mpr ⟨b, d⟩⟩
    · rintro ⟨p, hp1, hp2⟩
      rw [contains_iff] at hp1 hp2
      obtain ⟨a1, a2⟩ := hp1
      obtain ⟨b1, b2⟩ := hp2
      exact ⟨by linarith, by linarith, hi, hj⟩

/-- C5 witness: the theorem applied to the canonical empty interval and the
unit interval, discharging the emptiness hypothesis. -/
theorem C5_witness : empty_interval.intersects ⟨0, 1⟩ = false :=
  (C5_intersects_symmetric_empty empty_interval ⟨0, 1⟩).2.1 (Or.inl (by decide))

/-- C6 counterexample: the claim says interior_intersects returns false when
the overlap of the open interiors is degenerate, such as a single-point
argument. On the unit interval and the single point 1/2 (the repository's
own unit/half test row, which expects true) the source returns true even
though the open interiors do not overlap. -/
theorem C6_counterexample :
    Interval.interior_intersects ⟨0, 1⟩ ⟨1/2, 1/2⟩ = true ∧
    ¬ claim_open_interiors_overlap ⟨0, 1⟩ ⟨1/2, 1/2⟩ := by
  constructor
  · simp only [Interval.interior_intersects, Bool.and_eq_true, decide_eq_true_eq]
    norm_num
  · unfold claim_open_interiors_overlap
    simp only [max_def, min_def]
    norm_num

/-- C6 amended: interior_intersects i j is true exactly when the OPEN
interior of the receiver meets the CLOSED range of the argument (so a
single-point argument strictly inside the receiver counts), and it is
false whenever either operand is empty. -/
theorem C6_amended_interior_intersects (i j : Interval) :
    (i.interior_intersects j = true ↔
      ∃ p, i.interior_contains p = true ∧ j.contains p = true) ∧
    (i.is_empty = true ∨ j.is_empty = true → i.interior_intersects j = false) := by
  constructor
  · rw [interior_intersects_iff]
    constructor
    · rintro ⟨a, b, c, d⟩
      by_cases hp : i.lo < j.lo
      · refine ⟨j.lo, ?_, ?_⟩
        · rw [interior_contains_iff]
          exact ⟨hp, a⟩
        · rw [contains_iff]
          exact ⟨le_refl _, d⟩
      · push_neg at hp
        refine ⟨(i.lo + min i.hi j.hi) / 2, ?_, ?_⟩
        · rw [interior_contains_iff]
          have h1 := min_le_left i.hi j.hi
          have h2 : i.lo < min i.hi j.hi := lt_min c b
          constructor <;> linarith
        · rw [contains_iff]
          have h1 := min_le_right i.hi j.hi
          have h2 : i.lo < min i.hi j.hi := lt_min c b
          constructor <;> linarith
    · rintro ⟨p, hp1, hp2⟩
      rw [interior_contains_iff] at hp1
      rw [contains_iff] at hp2
      obtain ⟨a1, a2⟩ := hp1
      obtain ⟨b1, b2⟩ := hp2
      exact ⟨by linarith, by linarith, by linarith, by linarith⟩
  · intro hemp
    cases hv : i.interior_intersects j with
    | false => rfl
    | true =>
        exfalso
        obtain ⟨a, b, c, d⟩ := (interior_intersects_iff i j).mp hv
        rcases hemp with he | he <;> rw [is_empty_true_iff] at he <;> linarith

/-- C6 witness: the amended theorem applied to the canonical empty interval
and the unit interval, discharging the emptiness hypothesis. -/
theorem C6_witness : empty_interval.interior_intersects ⟨0, 1⟩ = false :=
  (C6_amended_interior_intersects empty_interval ⟨0, 1⟩).2 (Or.inl (by decide))

/-- C7: the canonical empty interval is an identity for union up to
empty-aware equality; an empty receiver yields the argument, an empty
argument yields a result equal to the receiver, two non-empty operands
give the min of the lows and max of the his, and the union of the two
empty intervals [5,3] and [0,-2] is empty. -/
theorem C7_union_empty_identity (i j : Interval) :
    (i.union empty_interval).equal i = true ∧
    (empty_interval.union i).equal i = true ∧
    (i.is_empty = true → i.union j = j) ∧
    (j.is_empty = true → (i.union j).equal i = true) ∧
    (i.is_empty = false → j.is_empty = false →
      i.union j = Interval.mk (min i.lo j.lo) (max i.hi j.hi)) ∧
    (Interval.union ⟨5, 3⟩ ⟨0, -2⟩).is_empty = true := by
  have hce : empty_interval.is_empty = true := by decide
  refine ⟨?_, ?_, ?_, ?_, ?_, by decide⟩
  · cases hi : i.is_empty
    · rw [union_of_empty_right hi hce]
      exact equal_refl i
    · rw [union_of_empty_left empty_interval hi]
      exact equal_of_empty hce hi
  · rw [union_of_empty_left i hce]
    exact equal_refl i
  · intro hi
    exact union_of_empty_left j hi
  · intro hj
    cases hi : i.is_empty
    · rw [union_of_empty_right hi hj]
      exact equal_refl i
    · rw [union_of_empty_left j hi]
      exact equal_of_empty hj hi
  · intro hi hj
    exact union_of_not_empty hi hj

/-- C7 witness: the theorem applied to the two empty intervals of scenario B,
discharging the empty-receiver hypothesis. -/
theorem C7_witness : Interval.union ⟨5, 3⟩ ⟨0, -2⟩ = Interval.mk 0 (-2) :=
  (C7_union_empty_identity ⟨5, 3⟩ ⟨0, -2⟩).2.2.1 (by decide)

/-- C9: add_rect and union on rectangles are field-for-field the same
operation, both the per-axis Interval union of the operands. -/
theorem C9_add_rect_eq_union (r1 r2 : Rect) :
    r1.add_rect r2 = r1.union r2 ∧
    r1.add_rect r2 = Rect.mk (r1.x.union r2.x) (r1.y.union r2.y) :=
  ⟨rfl, rfl⟩

/-- C10: on an empty receiver (lo > hi under IEEE comparison, which rules
out NaN bounds) clamp_point is total and deterministic and returns lo for
every input p, including NaN and the infinities, because the Rust min of
hi and p never exceeds hi, which is below lo. -/
theorem C10_clamp_point_empty (i : FInterval) (p : Fp) (h : i.is_empty = true) :
    i.clamp_point p = i.lo := by
  obtain ⟨lo, hi⟩ := i
  rw [FInterval.is_empty, Fp.gt] at h
  obtain ⟨hhi, hlo⟩ := fp_lt_ne_nan h
  show Fp.rustMax lo (Fp.rustMin hi p) = lo
  by_cases hp : p = Fp.nan
  · subst hp
    rw [Fp.rustMin, if_neg hhi, if_pos rfl, Fp.rustMax, if_neg hlo, if_neg hhi,
      if_neg (by simp [fp_lt_asymm h])]
  · rw [Fp.rustMin, if_neg hhi, if_neg hp]
    by_cases hm : Fp.lt hi p = true
    · rw [if_pos hm, Fp.rustMax, if_neg hlo, if_neg hhi,
        if_neg (by simp [fp_lt_asymm h])]
    · have hm2 : Fp.lt hi p = false := by simpa using hm
      rw [if_neg hm, Fp.rustMax, if_neg hlo, if_neg hp,
        if_neg (by simp [fp_lt_chain hp h hm2])]

/-- C10 witness: the theorem applied to the empty f64 interval with lo = 1,
hi = 0 and the input NaN. -/
theorem C10_witness :
    (FInterval.mk (Fp.fin 1) (Fp.fin 0)).clamp_point Fp.nan = Fp.fin 1 :=
  C10_clamp_point_empty ⟨Fp.fin 1, Fp.fin 0⟩ Fp.nan (by decide)

/-- C8: the claim says Vector approx_equal is true exactly when every
component differs by strictly less than 1e-16 in absolute value. The source
only takes the absolute value of the x difference; the y and z components
compare the signed difference, so the vector (0,1,0), whose y component is
a full unit away from (0,0,0), is reported approximately equal. -/
theorem C8_approx_equal_code_bug :
    Vector.approx_equal ⟨0, 0, 0⟩ ⟨0, 1, 0⟩ = true ∧
    ¬ |(0 : ℚ) - 1| < 1 / 10 ^ 16 := by
  constructor
  · simp only [Vector.approx_equal, Bool.and_eq_true, decide_eq_true_eq]
    norm_num
  · norm_num

end Geo
